import Mathlib

/-!
# The state transition function of the application manager

A shallow embedding of `serverv2/appmanager/stf.go`.

The Go code is an orchestrator over external collaborators: the hooks held by
`STFAppManager`, and the methods of the `BranchStore` interface.  Their
behaviour is a parameter of the model.  Everything they can read or write
outside the orchestrator (store contents, module state) is one value of an
arbitrary type `W`, threaded through every call.  On top of `W` the model keeps
a ghost call log: every collaborator invocation made by the orchestrator is
appended to it with its arguments, in program order, so that statements such as
"the handler is not invoked" or "merged before the handler runs" can be stated.
In the same way it keeps the list of the execution contexts that `makeContext` has
built for the phases, in program order.  The collaborators never see either log.

Types declared elsewhere in the package (`ReadonlyStore`, `BranchStore`, the
change set, `Event`, `Type`, `error`, `context.Context`) are type parameters
`RStore`, `Store`, `CS`, `Event`, `Ty`, `Err`, `Ctx`.  A possibly nil interface
value is an `Option`.  `uint64` is a natural number reduced modulo `2 ^ 64`.
-/

namespace AppManager

set_option linter.unusedVariables false

/-- Go `[]byte`: a list of byte values. -/
abbrev Bytes := List Nat

/-- The source builds `runtimeIdentity` from a byte slice, so an identity is a byte string. -/
abbrev Identity := Bytes

/-- The bytes of the string "app-manager" (stf.go line 8). -/
def runtimeIdentity : Identity := [97, 112, 112, 45, 109, 97, 110, 97, 103, 101, 114]

/-- Addition on `uint64`. -/
def addU64 (a b : Nat) : Nat := (a + b) % 2 ^ 64

/-- Subtraction on `uint64` (wraps around below zero). -/
def subU64 (a b : Nat) : Nat := (a % 2 ^ 64 + 2 ^ 64 - b % 2 ^ 64) % 2 ^ 64

/-- The struct `executionContext` (stf.go lines 10-17); `Context` is the embedded
`context.Context`. -/
structure executionContext (Ctx Store Event : Type) where
  Context : Ctx
  store : Store
  gasUsed : Nat
  gasLimit : Nat
  events : List Event
  sender : Identity
deriving DecidableEq, Repr

/-- The `context.Context` argument of a hook.  The orchestrator passes either the
context it received from its caller, or a pointer to an `executionContext` it has just
allocated; a freshly allocated pointer is never equal to a caller's value. -/
inductive HookCtx (Ctx Store Event : Type) where
  | outer (ctx : Ctx)
  | exec (execCtx : executionContext Ctx Store Event)
deriving DecidableEq, Repr

/-- A decoded transaction (interface `Tx`, stf.go lines 23-27): a non-nil value whose
three getters are pure. -/
structure Tx (Ty : Type) where
  message : Option Ty
  sender : Identity
  gasLimit : Nat
deriving DecidableEq, Repr

/-- Getter `Tx.GetMessage`. -/
def Tx.GetMessage {Ty : Type} (tx : Tx Ty) : Option Ty := tx.message

/-- Getter `Tx.GetSender`. -/
def Tx.GetSender {Ty : Type} (tx : Tx Ty) : Identity := tx.sender

/-- Getter `Tx.GetGasLimit`, a `uint64`. -/
def Tx.GetGasLimit {Ty : Type} (tx : Tx Ty) : Nat := tx.gasLimit % 2 ^ 64

/-- The struct `Block` (stf.go lines 29-35); `Time` is an instant, kept as a number. -/
structure Block (Ty : Type) where
  Height : Nat
  Time : Nat
  Hash : Bytes
  Txs : List Bytes
  ConsensusMessages : List (Option Ty)
deriving DecidableEq, Repr

/-- The struct `TxResult` (stf.go lines 44-50). -/
structure TxResult (Event Ty Err : Type) where
  Events : List Event
  GasUsed : Nat
  Resp : Option Ty
  Error : Option Err
deriving DecidableEq, Repr

/-- The zero value of `TxResult`, which fills a slice made by `make`. -/
def TxResult.zero {Event Ty Err : Type} : TxResult Event Ty Err :=
  { Events := [], GasUsed := 0, Resp := none, Error := none }

/-- The struct `BlockResponse` (stf.go lines 37-42). -/
structure BlockResponse (Event Ty Err : Type) where
  BeginBlockEvents : List Event
  TxResults : List (TxResult Event Ty Err)
  EndBlockEvents : List Event
  ConsensusMessagesResponses : List (Option Ty)
deriving DecidableEq, Repr

/-- What a hook of type `func(ctx context.Context, ...) error` leaves behind: the error
it returns, the world after the call and, for a hook that was handed a pointer to an
`executionContext`, the values of the two accounting fields `gasUsed` and `events` of that
context after the call.  The other fields of the context are not reassigned by a hook.
When the hook was handed the caller's context the two accounting values are not read by
anyone. -/
structure HookResult (W Event Err : Type) where
  err : Option Err
  gasUsed : Nat
  events : List Event
  world : W

/-- What `handleMsg` or `handleQuery` leaves behind: as `HookResult`, with the response. -/
structure MsgResult (W Event Ty Err : Type) where
  resp : Option Ty
  err : Option Err
  gasUsed : Nat
  events : List Event
  world : W

/-- The two methods of the interface `BranchStore` that the orchestrator calls.  The
receiver is the first argument. -/
structure StoreMethods (W Store CS Err : Type) where
  ChangeSets : Store → W → Except Err CS × W
  ApplyChangeSets : Store → CS → W → Option Err × W

/-- The struct `STFAppManager` (stf.go lines 53-65).  `decodeTx` receives neither a
context nor a store; it is a pure function which returns either an error or a non-nil
transaction. -/
structure STFAppManager (W Ctx RStore Store Event Ty Err : Type) where
  handleMsg : HookCtx Ctx Store Event → Option Ty → W → MsgResult W Event Ty Err
  handleQuery : HookCtx Ctx Store Event → Option Ty → W → MsgResult W Event Ty Err
  doBeginBlock : HookCtx Ctx Store Event → W → HookResult W Event Err
  doEndBlock : HookCtx Ctx Store Event → W → HookResult W Event Err
  doTxValidation : HookCtx Ctx Store Event → Tx Ty → W → HookResult W Event Err
  decodeTx : Bytes → Except Err (Tx Ty)
  branch : RStore → W → Store × W

/-- One entry of the call log: a collaborator invocation with its arguments. -/
inductive Call (Ctx RStore Store CS Event Ty : Type) where
  | branch (state : RStore)
  | doBeginBlock (c : HookCtx Ctx Store Event)
  | doEndBlock (c : HookCtx Ctx Store Event)
  | decodeTx (txBytes : Bytes)
  | doTxValidation (c : HookCtx Ctx Store Event) (tx : Tx Ty)
  | handleMsg (c : HookCtx Ctx Store Event) (msg : Option Ty)
  | handleQuery (c : HookCtx Ctx Store Event) (req : Option Ty)
  | ChangeSets (store : Store)
  | ApplyChangeSets (store : Store) (changes : CS)
deriving DecidableEq, Repr

/-- The calls made on behalf of a transaction by the orchestrator itself: decoding,
validation hook, message handler. -/
def Call.isTxCall {Ctx RStore Store CS Event Ty : Type} :
    Call Ctx RStore Store CS Event Ty → Bool
  | Call.decodeTx _ => true
  | Call.doTxValidation _ _ => true
  | Call.handleMsg _ _ => true
  | _ => false

/-- The world together with the call log and the log of the execution contexts built
so far. -/
structure State (W Ctx RStore Store CS Event Ty : Type) where
  world : W
  trace : List (Call Ctx RStore Store CS Event Ty)
  built : List (executionContext Ctx Store Event)

section Model

variable {W Ctx RStore Store CS Event Ty Err : Type}

/-- Record a call and install the world it left. -/
def State.log (σ : State W Ctx RStore Store CS Event Ty)
    (c : Call Ctx RStore Store CS Event Ty) (w : W) : State W Ctx RStore Store CS Event Ty :=
  { world := w, trace := σ.trace ++ [c], built := σ.built }

/-- Record an execution context that a phase has just obtained from `makeContext`. -/
def State.build (σ : State W Ctx RStore Store CS Event Ty)
    (c : executionContext Ctx Store Event) : State W Ctx RStore Store CS Event Ty :=
  { world := σ.world, trace := σ.trace, built := σ.built ++ [c] }

/-- The method `STFAppManager.makeContext` (stf.go lines 196-210). -/
def makeContext (s : STFAppManager W Ctx RStore Store Event Ty Err)
    (ctx : Ctx) (sender : Identity) (store : Store) (gasLimit : Nat) :
    executionContext Ctx Store Event :=
  { Context := ctx
    store := store
    gasUsed := 0
    gasLimit := gasLimit
    events := []
    sender := sender }

/-- The results `(events, err)` of `beginBlock` and of `endBlock`, with the state left. -/
structure PhaseOut (W Ctx RStore Store CS Event Ty Err : Type) where
  events : List Event
  err : Option Err
  after : State W Ctx RStore Store CS Event Ty

/-- The method `STFAppManager.beginBlock` (stf.go lines 98-110). -/
def beginBlock (m : StoreMethods W Store CS Err)
    (s : STFAppManager W Ctx RStore Store Event Ty Err) (ctx : Ctx) (state : Store)
    (σ : State W Ctx RStore Store CS Event Ty) : PhaseOut W Ctx RStore Store CS Event Ty Err :=
  let execCtx := makeContext s ctx runtimeIdentity state 0
  let σ0 := σ.build execCtx
  let r := s.doBeginBlock (HookCtx.exec execCtx) σ0.world
  let σ1 := σ0.log (Call.doBeginBlock (HookCtx.exec execCtx)) r.world
  let execCtx := { execCtx with gasUsed := r.gasUsed % 2 ^ 64, events := r.events }
  match r.err with
  | some e => { events := [], err := some e, after := σ1 }
  | none =>
    let c := m.ChangeSets execCtx.store σ1.world
    let σ2 := σ1.log (Call.ChangeSets execCtx.store) c.2
    match c.1 with
    | Except.error e => { events := [], err := some e, after := σ2 }
    | Except.ok changes =>
      let a := m.ApplyChangeSets state changes σ2.world
      { events := execCtx.events, err := a.1,
        after := σ2.log (Call.ApplyChangeSets state changes) a.2 }

/-- The results `(gasUsed, events, err)` of `validateTx`, with the state left. -/
structure ValidateOut (W Ctx RStore Store CS Event Ty Err : Type) where
  gasUsed : Nat
  events : List Event
  err : Option Err
  after : State W Ctx RStore Store CS Event Ty

/-- The method `STFAppManager.validateTx` (stf.go lines 146-162). -/
def validateTx (m : StoreMethods W Store CS Err)
    (s : STFAppManager W Ctx RStore Store Event Ty Err) (ctx : Ctx) (store : Store)
    (gasLimit : Nat) (tx : Tx Ty) (σ : State W Ctx RStore Store CS Event Ty) :
    ValidateOut W Ctx RStore Store CS Event Ty Err :=
  let validateCtx : executionContext Ctx Store Event :=
    makeContext s ctx tx.GetSender store gasLimit
  let σ0 := σ.build validateCtx
  let r := s.doTxValidation (HookCtx.outer ctx) tx σ0.world
  let σ1 := σ0.log (Call.doTxValidation (HookCtx.outer ctx) tx) r.world
  match r.err with
  | some _ => { gasUsed := 0, events := [], err := none, after := σ1 }
  | none =>
    let c := m.ChangeSets validateCtx.store σ1.world
    let σ2 := σ1.log (Call.ChangeSets validateCtx.store) c.2
    match c.1 with
    | Except.error e => { gasUsed := 0, events := [], err := some e, after := σ2 }
    | Except.ok changeSets =>
      let a := m.ApplyChangeSets store changeSets σ2.world
      let σ3 := σ2.log (Call.ApplyChangeSets store changeSets) a.2
      match a.1 with
      | some e => { gasUsed := 0, events := [], err := some e, after := σ3 }
      | none =>
        { gasUsed := validateCtx.gasUsed, events := validateCtx.events, err := none,
          after := σ3 }

/-- The results `(msgResp, gasUsed, execEvents, err)` of `execTx`, with the state left. -/
structure ExecOut (W Ctx RStore Store CS Event Ty Err : Type) where
  msgResp : Option Ty
  gasUsed : Nat
  execEvents : List Event
  err : Option Err
  after : State W Ctx RStore Store CS Event Ty

/-- The method `STFAppManager.execTx` (stf.go lines 164-180). -/
def execTx (m : StoreMethods W Store CS Err)
    (s : STFAppManager W Ctx RStore Store Event Ty Err) (ctx : Ctx) (store : Store)
    (gasLimit : Nat) (tx : Tx Ty) (σ : State W Ctx RStore Store CS Event Ty) :
    ExecOut W Ctx RStore Store CS Event Ty Err :=
  let execCtx : executionContext Ctx Store Event :=
    makeContext s ctx tx.GetSender store gasLimit
  let σ0 := σ.build execCtx
  let r := s.handleMsg (HookCtx.outer ctx) tx.GetMessage σ0.world
  let σ1 := σ0.log (Call.handleMsg (HookCtx.outer ctx) tx.GetMessage) r.world
  match r.err with
  | some e => { msgResp := none, gasUsed := 0, execEvents := [], err := some e, after := σ1 }
  | none =>
    let c := m.ChangeSets execCtx.store σ1.world
    let σ2 := σ1.log (Call.ChangeSets execCtx.store) c.2
    match c.1 with
    | Except.error e =>
      { msgResp := none, gasUsed := 0, execEvents := [], err := some e, after := σ2 }
    | Except.ok changeSets =>
      let a := m.ApplyChangeSets store changeSets σ2.world
      let σ3 := σ2.log (Call.ApplyChangeSets store changeSets) a.2
      match a.1 with
      | some e =>
        { msgResp := none, gasUsed := 0, execEvents := [], err := some e, after := σ3 }
      | none =>
        { msgResp := r.resp, gasUsed := 0, execEvents := execCtx.events, err := none,
          after := σ3 }

/-- The method `STFAppManager.deliverTx` (stf.go lines 112-142). -/
def deliverTx (m : StoreMethods W Store CS Err)
    (s : STFAppManager W Ctx RStore Store Event Ty Err) (ctx : Ctx) (state : Store)
    (txBytes : Bytes) (σ : State W Ctx RStore Store CS Event Ty) :
    TxResult Event Ty Err × State W Ctx RStore Store CS Event Ty :=
  let σ0 := σ.log (Call.decodeTx txBytes) σ.world
  match s.decodeTx txBytes with
  | Except.error err => ({ Events := [], GasUsed := 0, Resp := none, Error := some err }, σ0)
  | Except.ok tx =>
    let v := validateTx m s ctx state tx.GetGasLimit tx σ0
    match v.err with
    | some err => ({ Events := [], GasUsed := 0, Resp := none, Error := some err }, v.after)
    | none =>
      let x := execTx m s ctx state (subU64 tx.GetGasLimit v.gasUsed) tx v.after
      match x.err with
      | some err =>
        ({ Events := v.events, GasUsed := addU64 v.gasUsed x.gasUsed, Resp := none,
           Error := some err }, x.after)
      | none =>
        ({ Events := v.events ++ x.execEvents, GasUsed := addU64 x.gasUsed v.gasUsed,
           Resp := x.msgResp, Error := none }, x.after)

/-- The method `STFAppManager.endBlock` (stf.go lines 182-194). -/
def endBlock (m : StoreMethods W Store CS Err)
    (s : STFAppManager W Ctx RStore Store Event Ty Err) (ctx : Ctx) (store : Store)
    (block : Block Ty) (σ : State W Ctx RStore Store CS Event Ty) :
    PhaseOut W Ctx RStore Store CS Event Ty Err :=
  let execCtx := makeContext s ctx runtimeIdentity store 0
  let σ0 := σ.build execCtx
  let r := s.doBeginBlock (HookCtx.exec execCtx) σ0.world
  let σ1 := σ0.log (Call.doBeginBlock (HookCtx.exec execCtx)) r.world
  let execCtx := { execCtx with gasUsed := r.gasUsed % 2 ^ 64, events := r.events }
  match r.err with
  | some e => { events := [], err := some e, after := σ1 }
  | none =>
    let c := m.ChangeSets execCtx.store σ1.world
    let σ2 := σ1.log (Call.ChangeSets execCtx.store) c.2
    match c.1 with
    | Except.error e => { events := [], err := some e, after := σ2 }
    | Except.ok changes =>
      let a := m.ApplyChangeSets store changes σ2.world
      { events := execCtx.events, err := a.1,
        after := σ2.log (Call.ApplyChangeSets store changes) a.2 }

/-- The loop of `DeliverBlock` (stf.go lines 82-84): the raw transactions still to be
delivered, the index `i` of the first of them, the slice `txResults` and the state. -/
def deliverLoop (m : StoreMethods W Store CS Err)
    (s : STFAppManager W Ctx RStore Store Event Ty Err) (ctx : Ctx) (newState : Store) :
    List Bytes → Nat → List (TxResult Event Ty Err) → State W Ctx RStore Store CS Event Ty →
    List (TxResult Event Ty Err) × State W Ctx RStore Store CS Event Ty
  | [], _, txResults, σ => (txResults, σ)
  | txBytes :: rest, i, txResults, σ =>
    let r := deliverTx m s ctx newState txBytes σ
    deliverLoop m s ctx newState rest (i + 1) (txResults.set i r.1) r.2

/-- The results `(blockResult, newState, err)` of `DeliverBlock`, with the state left. -/
structure DeliverOut (W Ctx RStore Store CS Event Ty Err : Type) where
  blockResult : Option (BlockResponse Event Ty Err)
  newState : Option Store
  err : Option Err
  after : State W Ctx RStore Store CS Event Ty

/-- The method `STFAppManager.DeliverBlock` (stf.go lines 70-96). -/
def DeliverBlock (m : StoreMethods W Store CS Err)
    (s : STFAppManager W Ctx RStore Store Event Ty Err) (ctx : Ctx) (block : Block Ty)
    (state : RStore) (σ : State W Ctx RStore Store CS Event Ty) :
    DeliverOut W Ctx RStore Store CS Event Ty Err :=
  let b := s.branch state σ.world
  let newState := b.1
  let σ0 := σ.log (Call.branch state) b.2
  let bb := beginBlock m s ctx newState σ0
  match bb.err with
  | some e => { blockResult := none, newState := none, err := some e, after := bb.after }
  | none =>
    let txResults : List (TxResult Event Ty Err) :=
      List.replicate block.Txs.length TxResult.zero
    let l := deliverLoop m s ctx newState block.Txs 0 txResults bb.after
    let eb := endBlock m s ctx newState block l.2
    match eb.err with
    | some e => { blockResult := none, newState := none, err := some e, after := eb.after }
    | none =>
      { blockResult := some
          { BeginBlockEvents := bb.events
            TxResults := l.1
            EndBlockEvents := eb.events
            ConsensusMessagesResponses := [] }
        newState := some newState
        err := none
        after := eb.after }

/-- The state in which transaction number `i` of `txs` is delivered when the
transactions are delivered one after the other, in input order, starting from `σ`: the
state left by transactions `0 .. i-1`. -/
def stateBefore (m : StoreMethods W Store CS Err)
    (s : STFAppManager W Ctx RStore Store Event Ty Err) (ctx : Ctx) (newState : Store)
    (txs : List Bytes) (σ : State W Ctx RStore Store CS Event Ty) (i : Nat) :
    State W Ctx RStore Store CS Event Ty :=
  (txs.take i).foldl (fun st txBytes => (deliverTx m s ctx newState txBytes st).2) σ

/-- The context `validateCtx` that `validateTx` builds from its arguments
(stf.go line 147). -/
def validateTxContext (s : STFAppManager W Ctx RStore Store Event Ty Err) (ctx : Ctx)
    (store : Store) (gasLimit : Nat) (tx : Tx Ty) : executionContext Ctx Store Event :=
  makeContext s ctx tx.GetSender store gasLimit

/-- The context `execCtx` that `execTx` builds from its arguments (stf.go line 165). -/
def execTxContext (s : STFAppManager W Ctx RStore Store Event Ty Err) (ctx : Ctx)
    (store : Store) (gasLimit : Nat) (tx : Tx Ty) : executionContext Ctx Store Event :=
  makeContext s ctx tx.GetSender store gasLimit

/-- The context argument of a logged call, when the call is a hook invocation. -/
def Call.hookCtx : Call Ctx RStore Store CS Event Ty → Option (HookCtx Ctx Store Event)
  | Call.doBeginBlock c => some c
  | Call.doEndBlock c => some c
  | Call.doTxValidation c _ => some c
  | Call.handleMsg c _ => some c
  | Call.handleQuery c _ => some c
  | _ => none

end Model

/-! ## A concrete application

Every parameter type is `Nat`, except the world, which is the list of the numbers
staged in the working store.  A raw transaction is three bytes: gas limit, sender,
message. -/

namespace Demo

/-- A store whose change set is everything staged so far, and whose merge appends. -/
def store : StoreMethods (List Nat) Nat (List Nat) Nat :=
  { ChangeSets := fun _ w => (Except.ok w, w)
    ApplyChangeSets := fun _ cs w => (none, w ++ cs) }

/-- Three bytes decode; anything else is error 1. -/
def decode : Bytes → Except Nat (Tx Nat)
  | [g, snd, msg] => Except.ok { message := some msg, sender := [snd], gasLimit := g }
  | _ => Except.error 1

/-- Validation rejects message 0 with error 2, and stages the gas limit otherwise. -/
def validate (c : HookCtx Nat Nat Nat) (tx : Tx Nat) (w : List Nat) : HookResult (List Nat) Nat Nat :=
  if tx.message = some 0 then { err := some 2, gasUsed := 0, events := [], world := w }
  else { err := none, gasUsed := 5, events := [20], world := w ++ [tx.gasLimit] }

/-- The handler rejects message 7 with error 3, and answers `msg + 100` otherwise. -/
def handle (c : HookCtx Nat Nat Nat) (msg : Option Nat) (w : List Nat) :
    MsgResult (List Nat) Nat Nat Nat :=
  if msg = some 7 then { resp := some 0, err := some 3, gasUsed := 0, events := [], world := w }
  else { resp := msg.map (· + 100), err := none, gasUsed := 4, events := [30],
         world := w ++ [1000] }

/-- The begin-block hook succeeds and emits event 1. -/
def begin (c : HookCtx Nat Nat Nat) (w : List Nat) : HookResult (List Nat) Nat Nat :=
  { err := none, gasUsed := 0, events := [1], world := w }

/-- The end-block hook fails with error 9. -/
def finish (c : HookCtx Nat Nat Nat) (w : List Nat) : HookResult (List Nat) Nat Nat :=
  { err := some 9, gasUsed := 0, events := [2], world := w }

/-- The application made of the hooks above; branching a state `n` gives store `n + 1`. -/
def app : STFAppManager (List Nat) Nat Nat Nat Nat Nat Nat :=
  { handleMsg := handle
    handleQuery := handle
    doBeginBlock := begin
    doEndBlock := finish
    doTxValidation := validate
    decodeTx := decode
    branch := fun state w => (state + 1, w) }

/-- The same application with a begin-block hook that fails. -/
def failingApp : STFAppManager (List Nat) Nat Nat Nat Nat Nat Nat :=
  { app with doBeginBlock := finish }

/-- The initial state: nothing staged, nothing called. -/
def init : State (List Nat) Nat Nat Nat (List Nat) Nat Nat :=
  { world := [], trace := [], built := [] }

/-- A block of height 1 with the given raw transactions. -/
def blockOf (txs : List Bytes) : Block Nat :=
  { Height := 1, Time := 0, Hash := [], Txs := txs, ConsensusMessages := [] }

end Demo

end AppManager

/-! # The wrapper of the eyes transactions

A shallow embedding of `modules/eyes/eyestxinner_wrapper.go`.  The concrete transaction
types `SetTx` and `RemoveTx` are declared elsewhere in the package and are type
parameters. -/

namespace Eyes

/-- A value of the interface type `EyesTxInner`: nil, a `SetTx`, a `RemoveTx`, or an
`EyesTx` struct value, which itself holds a value of the interface.  Interface values
hold copies, so the nesting is finite. -/
inductive EyesTxInner (SetTx RemoveTx : Type) where
  | nil
  | setTx (t : SetTx)
  | removeTx (t : RemoveTx)
  | eyesTx (inner : EyesTxInner SetTx RemoveTx)
deriving DecidableEq, Repr

/-- The struct `EyesTx` (lines 15-17), with its one embedded field. -/
structure EyesTx (SetTx RemoveTx : Type) where
  EyesTxInner : EyesTxInner SetTx RemoveTx
deriving DecidableEq, Repr

/-- An `EyesTx` struct value stored in the interface. -/
def EyesTx.toInner {SetTx RemoveTx : Type} (h : EyesTx SetTx RemoveTx) :
    Eyes.EyesTxInner SetTx RemoveTx :=
  Eyes.EyesTxInner.eyesTx h.EyesTxInner

/-- The type assertion `hi.(EyesTx)` in its two-result form: the wrapper when the
dynamic type is `EyesTx`. -/
def assertEyesTx {SetTx RemoveTx : Type} :
    EyesTxInner SetTx RemoveTx → Option (EyesTx SetTx RemoveTx)
  | EyesTxInner.eyesTx inner => some { EyesTxInner := inner }
  | _ => none

/-- The loop of `Unwrap` (lines 36-38) from the current value `hi`: while `hi` is an
`EyesTx`, replace it by the value the wrapper holds. -/
def unwrapLoop {SetTx RemoveTx : Type} :
    EyesTxInner SetTx RemoveTx → EyesTxInner SetTx RemoveTx
  | EyesTxInner.eyesTx inner => unwrapLoop inner
  | hi => hi

/-- The method `EyesTx.Unwrap` (lines 34-40). -/
def EyesTx.Unwrap {SetTx RemoveTx : Type} (h : EyesTx SetTx RemoveTx) :
    Eyes.EyesTxInner SetTx RemoveTx :=
  unwrapLoop h.EyesTxInner

/-- The method `EyesTx.Empty` (lines 42-44). -/
def EyesTx.Empty {SetTx RemoveTx : Type} [DecidableEq SetTx] [DecidableEq RemoveTx]
    (h : EyesTx SetTx RemoveTx) : Bool :=
  h.EyesTxInner = Eyes.EyesTxInner.nil

/-- The method `SetTx.Wrap` (lines 52-54). -/
def SetTx.Wrap {SetTx RemoveTx : Type} (hi : SetTx) : EyesTx SetTx RemoveTx :=
  { EyesTxInner := EyesTxInner.setTx hi }

/-- The method `RemoveTx.Wrap` (lines 60-62). -/
def RemoveTx.Wrap {SetTx RemoveTx : Type} (hi : RemoveTx) : EyesTx SetTx RemoveTx :=
  { EyesTxInner := EyesTxInner.removeTx hi }

/-- The value `x` wrapped `n + 1` times in `EyesTx`. -/
def wrapTimes {SetTx RemoveTx : Type} (x : EyesTxInner SetTx RemoveTx) :
    Nat → EyesTx SetTx RemoveTx
  | 0 => { EyesTxInner := x }
  | n + 1 => { EyesTxInner := (wrapTimes x n).toInner }

end Eyes

namespace AppManager

/-! ## The execution context -/

section Theorems

variable {W Ctx RStore Store CS Event Ty Err : Type}

/-- C10: for every context, sender, store and gas limit, `makeContext` returns an
execution context whose gas used is 0, whose gas limit is the given one, whose event log
is empty, whose sender is the given identity and whose embedded context is the given
one. -/
theorem makeContext_fields (s : STFAppManager W Ctx RStore Store Event Ty Err)
    (ctx : Ctx) (sender : Identity) (store : Store) (gasLimit : Nat) :
    (makeContext s ctx sender store gasLimit).gasUsed = 0 ∧
    (makeContext s ctx sender store gasLimit).gasLimit = gasLimit ∧
    (makeContext s ctx sender store gasLimit).events = [] ∧
    (makeContext s ctx sender store gasLimit).sender = sender ∧
    (makeContext s ctx sender store gasLimit).Context = ctx :=
  ⟨rfl, rfl, rfl, rfl, rfl⟩

/-- C7 (the code departs from it): the store held by the context that `makeContext`
returns is the given store itself, whatever the branching function of the manager is;
no branch is taken. -/
theorem makeContext_store_is_given (s : STFAppManager W Ctx RStore Store Event Ty Err)
    (ctx : Ctx) (sender : Identity) (store : Store) (gasLimit : Nat) :
    (makeContext s ctx sender store gasLimit).store = store :=
  rfl

/-! ## Delivery of one transaction -/

/-- C4: when the decoder returns an error, `deliverTx` returns a result that carries only
that error (no events, gas 0, no response); the world is left as it was and the only call
made is the call of the decoder: neither the validation hook nor the message handler is
invoked, and neither `ChangeSets` nor `ApplyChangeSets` is called. -/
theorem deliverTx_decode_error (m : StoreMethods W Store CS Err)
    (s : STFAppManager W Ctx RStore Store Event Ty Err) (ctx : Ctx) (state : Store)
    (txBytes : Bytes) (σ : State W Ctx RStore Store CS Event Ty) (err : Err)
    (hdec : s.decodeTx txBytes = Except.error err) :
    deliverTx m s ctx state txBytes σ =
      ({ Events := [], GasUsed := 0, Resp := none, Error := some err },
       { world := σ.world, trace := σ.trace ++ [Call.decodeTx txBytes],
         built := σ.built }) := by
  simp [deliverTx, hdec, State.log]

/-- C4, at a raw transaction of one byte, which the decoder of the concrete application
rejects. -/
theorem deliverTx_decode_error_witness :
    Demo.app.decodeTx [3] = Except.error 1 ∧
    deliverTx Demo.store Demo.app 0 1 [3] Demo.init =
      ({ Events := [], GasUsed := 0, Resp := none, Error := some 1 },
       { world := Demo.init.world, trace := Demo.init.trace ++ [Call.decodeTx [3]],
         built := Demo.init.built }) :=
  ⟨rfl, deliverTx_decode_error Demo.store Demo.app 0 1 [3] Demo.init 1 rfl⟩

/-- C5: when decoding succeeds, the validation hook succeeds, the validation change set
is pulled and merged without error, and the message handler then returns an error `e`,
the result of `deliverTx` has error `e`, no response, the events of the validation phase
and the gas of the validation phase only.  The calls made are, in order: decoder,
validation hook, `ChangeSets`, `ApplyChangeSets` of the validation change set on the
working store, message handler; nothing is merged after the handler. -/
theorem deliverTx_exec_error (m : StoreMethods W Store CS Err)
    (s : STFAppManager W Ctx RStore Store Event Ty Err) (ctx : Ctx) (state : Store)
    (txBytes : Bytes) (σ : State W Ctx RStore Store CS Event Ty) (tx : Tx Ty)
    (cs : CS) (w2 w3 : W) (e : Err) (v : ValidateOut W Ctx RStore Store CS Event Ty Err)
    (hdec : s.decodeTx txBytes = Except.ok tx)
    (hval : (s.doTxValidation (HookCtx.outer ctx) tx σ.world).err = none)
    (hcs : m.ChangeSets state (s.doTxValidation (HookCtx.outer ctx) tx σ.world).world
      = (Except.ok cs, w2))
    (happly : m.ApplyChangeSets state cs w2 = (none, w3))
    (hmsg : (s.handleMsg (HookCtx.outer ctx) tx.GetMessage w3).err = some e)
    (hv : validateTx m s ctx state tx.GetGasLimit tx (σ.log (Call.decodeTx txBytes) σ.world)
      = v) :
    v.err = none ∧
    (deliverTx m s ctx state txBytes σ).1 =
      { Events := v.events, GasUsed := v.gasUsed, Resp := none, Error := some e } ∧
    (deliverTx m s ctx state txBytes σ).2 =
      { world := (s.handleMsg (HookCtx.outer ctx) tx.GetMessage w3).world
        trace := σ.trace ++
          [Call.decodeTx txBytes, Call.doTxValidation (HookCtx.outer ctx) tx,
           Call.ChangeSets state, Call.ApplyChangeSets state cs,
           Call.handleMsg (HookCtx.outer ctx) tx.GetMessage]
        built := σ.built ++
          [makeContext s ctx tx.GetSender state tx.GetGasLimit,
           makeContext s ctx tx.GetSender state (subU64 tx.GetGasLimit v.gasUsed)] } := by
  subst hv
  simp [deliverTx, validateTx, execTx, hdec, hval, hcs, happly, hmsg, State.log, State.build,
    makeContext, addU64]

/-- C5, at the raw transaction `[10, 1, 7]` of the concrete application, whose message
the handler rejects with error 3. -/
theorem deliverTx_exec_error_witness :
    (deliverTx Demo.store Demo.app 0 1 [10, 1, 7] Demo.init).1 =
      { Events := [], GasUsed := 0, Resp := none, Error := some 3 } ∧
    (deliverTx Demo.store Demo.app 0 1 [10, 1, 7] Demo.init).2 =
      { world := [10, 10]
        trace :=
          [Call.decodeTx [10, 1, 7],
           Call.doTxValidation (HookCtx.outer 0) { message := some 7, sender := [1], gasLimit := 10 },
           Call.ChangeSets 1, Call.ApplyChangeSets 1 [10],
           Call.handleMsg (HookCtx.outer 0) (some 7)]
        built :=
          [{ Context := 0, store := 1, gasUsed := 0, gasLimit := 10, events := [],
             sender := [1] },
           { Context := 0, store := 1, gasUsed := 0, gasLimit := 10, events := [],
             sender := [1] }] } :=
  (deliverTx_exec_error Demo.store Demo.app 0 1 [10, 1, 7] Demo.init
    { message := some 7, sender := [1], gasLimit := 10 } [10] [10] [10, 10] 3
    { gasUsed := 0, events := [], err := none,
      after :=
        { world := [10, 10]
          trace :=
            [Call.decodeTx [10, 1, 7],
             Call.doTxValidation (HookCtx.outer 0)
               { message := some 7, sender := [1], gasLimit := 10 },
             Call.ChangeSets 1, Call.ApplyChangeSets 1 [10]]
          built :=
            [{ Context := 0, store := 1, gasUsed := 0, gasLimit := 10, events := [],
               sender := [1] }] } }
    rfl rfl rfl rfl rfl rfl).2

/-- C6: when decoding, the validation phase and the execution phase all succeed, the
result of `deliverTx` has no error, the response of the message handler, the validation
events followed by the execution events, and the validation gas plus the execution gas.
The calls made are, in order: decoder, validation hook, `ChangeSets`, `ApplyChangeSets`
of the validation change set, message handler, `ChangeSets`, `ApplyChangeSets` of the
execution change set: validation is merged before the handler runs, execution after. -/
theorem deliverTx_success (m : StoreMethods W Store CS Err)
    (s : STFAppManager W Ctx RStore Store Event Ty Err) (ctx : Ctx) (state : Store)
    (txBytes : Bytes) (σ : State W Ctx RStore Store CS Event Ty) (tx : Tx Ty)
    (cs cs2 : CS) (w2 w3 w5 w6 : W) (v : ValidateOut W Ctx RStore Store CS Event Ty Err)
    (x : ExecOut W Ctx RStore Store CS Event Ty Err)
    (hdec : s.decodeTx txBytes = Except.ok tx)
    (hval : (s.doTxValidation (HookCtx.outer ctx) tx σ.world).err = none)
    (hcs : m.ChangeSets state (s.doTxValidation (HookCtx.outer ctx) tx σ.world).world
      = (Except.ok cs, w2))
    (happly : m.ApplyChangeSets state cs w2 = (none, w3))
    (hmsg : (s.handleMsg (HookCtx.outer ctx) tx.GetMessage w3).err = none)
    (hcs2 : m.ChangeSets state (s.handleMsg (HookCtx.outer ctx) tx.GetMessage w3).world
      = (Except.ok cs2, w5))
    (happly2 : m.ApplyChangeSets state cs2 w5 = (none, w6))
    (hv : validateTx m s ctx state tx.GetGasLimit tx (σ.log (Call.decodeTx txBytes) σ.world)
      = v)
    (hx : execTx m s ctx state (subU64 tx.GetGasLimit v.gasUsed) tx v.after = x) :
    v.err = none ∧ x.err = none ∧
    (deliverTx m s ctx state txBytes σ).1 =
      { Events := v.events ++ x.execEvents, GasUsed := v.gasUsed + x.gasUsed,
        Resp := (s.handleMsg (HookCtx.outer ctx) tx.GetMessage w3).resp, Error := none } ∧
    (deliverTx m s ctx state txBytes σ).2 =
      { world := w6
        trace := σ.trace ++
          [Call.decodeTx txBytes, Call.doTxValidation (HookCtx.outer ctx) tx,
           Call.ChangeSets state, Call.ApplyChangeSets state cs,
           Call.handleMsg (HookCtx.outer ctx) tx.GetMessage,
           Call.ChangeSets state, Call.ApplyChangeSets state cs2]
        built := σ.built ++
          [makeContext s ctx tx.GetSender state tx.GetGasLimit,
           makeContext s ctx tx.GetSender state (subU64 tx.GetGasLimit v.gasUsed)] } := by
  subst hx
  subst hv
  simp [deliverTx, validateTx, execTx, hdec, hval, hcs, happly, hmsg, hcs2, happly2,
    State.log, State.build, makeContext, addU64]

/-- C6, at the raw transaction `[10, 1, 5]` of the concrete application. -/
theorem deliverTx_success_witness :
    (deliverTx Demo.store Demo.app 0 1 [10, 1, 5] Demo.init).1 =
      { Events := [], GasUsed := 0, Resp := some 105, Error := none } ∧
    (deliverTx Demo.store Demo.app 0 1 [10, 1, 5] Demo.init).2 =
      { world := [10, 10, 1000, 10, 10, 1000]
        trace :=
          [Call.decodeTx [10, 1, 5],
           Call.doTxValidation (HookCtx.outer 0) { message := some 5, sender := [1], gasLimit := 10 },
           Call.ChangeSets 1, Call.ApplyChangeSets 1 [10],
           Call.handleMsg (HookCtx.outer 0) (some 5),
           Call.ChangeSets 1, Call.ApplyChangeSets 1 [10, 10, 1000]]
        built :=
          [{ Context := 0, store := 1, gasUsed := 0, gasLimit := 10, events := [],
             sender := [1] },
           { Context := 0, store := 1, gasUsed := 0, gasLimit := 10, events := [],
             sender := [1] }] } :=
  (deliverTx_success Demo.store Demo.app 0 1 [10, 1, 5] Demo.init
    { message := some 5, sender := [1], gasLimit := 10 }
    [10] [10, 10, 1000] [10] [10, 10] [10, 10, 1000] [10, 10, 1000, 10, 10, 1000]
    (validateTx Demo.store Demo.app 0 1 10 { message := some 5, sender := [1], gasLimit := 10 }
      (Demo.init.log (Call.decodeTx [10, 1, 5]) Demo.init.world))
    (execTx Demo.store Demo.app 0 1 10 { message := some 5, sender := [1], gasLimit := 10 }
      (validateTx Demo.store Demo.app 0 1 10
        { message := some 5, sender := [1], gasLimit := 10 }
        (Demo.init.log (Call.decodeTx [10, 1, 5]) Demo.init.world)).after)
    rfl rfl rfl rfl rfl rfl rfl rfl rfl).2.2

/-! ## The loop over the transactions of a block -/

/-- The loop keeps the length of the result slice. -/
theorem deliverLoop_length (m : StoreMethods W Store CS Err)
    (s : STFAppManager W Ctx RStore Store Event Ty Err) (ctx : Ctx) (newState : Store)
    (txs : List Bytes) : ∀ (i : Nat) (acc : List (TxResult Event Ty Err))
      (σ : State W Ctx RStore Store CS Event Ty),
      (deliverLoop m s ctx newState txs i acc σ).1.length = acc.length := by
  induction txs with
  | nil => intro i acc σ; rfl
  | cons t rest ih => intro i acc σ; simp [deliverLoop, ih]

/-- The loop started at index `i` leaves the entries below `i` alone. -/
theorem deliverLoop_below (m : StoreMethods W Store CS Err)
    (s : STFAppManager W Ctx RStore Store Event Ty Err) (ctx : Ctx) (newState : Store)
    (txs : List Bytes) : ∀ (i : Nat) (acc : List (TxResult Event Ty Err))
      (σ : State W Ctx RStore Store CS Event Ty) (j : Nat), j < i →
      (deliverLoop m s ctx newState txs i acc σ).1[j]? = acc[j]? := by
  induction txs with
  | nil => intro i acc σ j _; rfl
  | cons t rest ih =>
    intro i acc σ j hj
    have hne : i ≠ j := by omega
    simp only [deliverLoop]
    rw [ih (i + 1) _ _ j (by omega), List.getElem?_set_ne hne]

/-- Unfolding `stateBefore` at the head of the list. -/
theorem stateBefore_zero (m : StoreMethods W Store CS Err)
    (s : STFAppManager W Ctx RStore Store Event Ty Err) (ctx : Ctx) (newState : Store)
    (txs : List Bytes) (σ : State W Ctx RStore Store CS Event Ty) :
    stateBefore m s ctx newState txs σ 0 = σ := by
  simp [stateBefore]

/-- Unfolding `stateBefore` past the head of the list. -/
theorem stateBefore_succ (m : StoreMethods W Store CS Err)
    (s : STFAppManager W Ctx RStore Store Event Ty Err) (ctx : Ctx) (newState : Store)
    (t : Bytes) (rest : List Bytes) (σ : State W Ctx RStore Store CS Event Ty) (k : Nat) :
    stateBefore m s ctx newState (t :: rest) σ (k + 1) =
      stateBefore m s ctx newState rest (deliverTx m s ctx newState t σ).2 k := by
  simp [stateBefore]

/-- Entry `i + k` of the slice after the loop is the result of delivering transaction `k`
in the state left by the transactions before it. -/
theorem deliverLoop_get (m : StoreMethods W Store CS Err)
    (s : STFAppManager W Ctx RStore Store Event Ty Err) (ctx : Ctx) (newState : Store)
    (txs : List Bytes) : ∀ (i : Nat) (acc : List (TxResult Event Ty Err))
      (σ : State W Ctx RStore Store CS Event Ty) (k : Nat) (txBytes : Bytes),
      i + txs.length ≤ acc.length → txs[k]? = some txBytes →
      (deliverLoop m s ctx newState txs i acc σ).1[i + k]? =
        some (deliverTx m s ctx newState txBytes (stateBefore m s ctx newState txs σ k)).1 := by
  induction txs with
  | nil => intro i acc σ k txBytes _ hk; simp at hk
  | cons t rest ih =>
    intro i acc σ k txBytes hlen hk
    simp only [List.length_cons] at hlen
    cases k with
    | zero =>
      simp only [List.getElem?_cons_zero, Option.some.injEq] at hk
      subst hk
      simp only [deliverLoop, Nat.add_zero, stateBefore_zero]
      rw [deliverLoop_below m s ctx newState rest (i + 1) _ _ i (by omega)]
      have hi : i < acc.length := by omega
      simp [List.getElem?_set_self, hi]
    | succ k =>
      simp only [List.getElem?_cons_succ] at hk
      simp only [deliverLoop, stateBefore_succ]
      have h := ih (i + 1) (acc.set i (deliverTx m s ctx newState t σ).1)
        (deliverTx m s ctx newState t σ).2 k txBytes (by simp; omega) hk
      rw [← h]
      congr 1
      omega

/-- The state after the loop is the state left by all the transactions. -/
theorem deliverLoop_state (m : StoreMethods W Store CS Err)
    (s : STFAppManager W Ctx RStore Store Event Ty Err) (ctx : Ctx) (newState : Store)
    (txs : List Bytes) : ∀ (i : Nat) (acc : List (TxResult Event Ty Err))
      (σ : State W Ctx RStore Store CS Event Ty),
      (deliverLoop m s ctx newState txs i acc σ).2 =
        stateBefore m s ctx newState txs σ txs.length := by
  induction txs with
  | nil => intro i acc σ; simp [deliverLoop, stateBefore]
  | cons t rest ih =>
    intro i acc σ
    simp only [deliverLoop, List.length_cons, stateBefore_succ]
    exact ih _ _ _

/-! ## Delivery of a block -/

/-- C1: when `DeliverBlock` returns without error, the returned `TxResults` has exactly
`len(block.Txs)` entries, and entry `i` is the result of `deliverTx` on `block.Txs[i]`,
against the one working store branched at the start, in the state left by begin-block and
then by transactions `0 .. i-1` in input order. -/
theorem DeliverBlock_txResults_in_order (m : StoreMethods W Store CS Err)
    (s : STFAppManager W Ctx RStore Store Event Ty Err) (ctx : Ctx) (block : Block Ty)
    (state : RStore) (σ : State W Ctx RStore Store CS Event Ty)
    (h : (DeliverBlock m s ctx block state σ).err = none) :
    ∃ br, (DeliverBlock m s ctx block state σ).blockResult = some br ∧
      br.TxResults.length = block.Txs.length ∧
      ∀ (i : Nat) (txBytes : Bytes), block.Txs[i]? = some txBytes →
        br.TxResults[i]? =
          some (deliverTx m s ctx (s.branch state σ.world).1 txBytes
            (stateBefore m s ctx (s.branch state σ.world).1 block.Txs
              (beginBlock m s ctx (s.branch state σ.world).1
                (σ.log (Call.branch state) (s.branch state σ.world).2)).after i)).1 := by
  unfold DeliverBlock at h ⊢
  simp only at h ⊢
  split at h
  · simp at h
  · rename_i hbb
    split at h
    · simp at h
    · rename_i heb
      simp only [hbb, heb]
      refine ⟨_, rfl, ?_, ?_⟩
      · simp [deliverLoop_length]
      · intro i txBytes hi
        have hget := deliverLoop_get m s ctx (s.branch state σ.world).1 block.Txs 0
          (List.replicate block.Txs.length TxResult.zero)
          (beginBlock m s ctx (s.branch state σ.world).1
            (σ.log (Call.branch state) (s.branch state σ.world).2)).after i txBytes
          (by simp) hi
        simpa using hget

/-- C1, at a block of the concrete application with four raw transactions, of which the
second does not decode and the fourth fails in the handler. -/
theorem DeliverBlock_txResults_in_order_witness :
    ∃ br, (DeliverBlock Demo.store Demo.app 0
        (Demo.blockOf [[10, 1, 5], [3], [10, 1, 0], [10, 1, 7]]) 0 Demo.init).blockResult
        = some br ∧
      br.TxResults.length = 4 ∧
      ∀ (i : Nat) (txBytes : Bytes),
        [[10, 1, 5], [3], [10, 1, 0], [10, 1, 7]][i]? = some txBytes →
        br.TxResults[i]? =
          some (deliverTx Demo.store Demo.app 0 1 txBytes
            (stateBefore Demo.store Demo.app 0 1 [[10, 1, 5], [3], [10, 1, 0], [10, 1, 7]]
              (beginBlock Demo.store Demo.app 0 1
                (Demo.init.log (Call.branch 0) [])).after i)).1 :=
  DeliverBlock_txResults_in_order Demo.store Demo.app 0
    (Demo.blockOf [[10, 1, 5], [3], [10, 1, 0], [10, 1, 7]]) 0 Demo.init rfl

/-- The begin-block phase fails exactly when its hook returns an error, or pulling
the change set fails, or applying it fails. -/
theorem beginBlock_err_iff (m : StoreMethods W Store CS Err)
    (s : STFAppManager W Ctx RStore Store Event Ty Err) (ctx : Ctx) (state : Store)
    (σ : State W Ctx RStore Store CS Event Ty) :
    (beginBlock m s ctx state σ).err ≠ none ↔
      (s.doBeginBlock (HookCtx.exec (makeContext s ctx runtimeIdentity state 0)) σ.world).err
        ≠ none ∨
      (∃ e, (m.ChangeSets state (s.doBeginBlock
        (HookCtx.exec (makeContext s ctx runtimeIdentity state 0)) σ.world).world).1
          = Except.error e) ∨
      (∃ cs, (m.ChangeSets state (s.doBeginBlock
        (HookCtx.exec (makeContext s ctx runtimeIdentity state 0)) σ.world).world).1
          = Except.ok cs ∧
        (m.ApplyChangeSets state cs (m.ChangeSets state (s.doBeginBlock
          (HookCtx.exec (makeContext s ctx runtimeIdentity state 0)) σ.world).world).2).1
          ≠ none) := by
  unfold beginBlock
  simp only [State.log, State.build, makeContext]
  split
  · rename_i e he
    simp [he]
  · rename_i he
    split
    · rename_i e hc
      simp [he, hc]
    · rename_i cs hc
      simp [he, hc]

/-- The begin-block phase logs no decoding, validation or handler call. -/
theorem beginBlock_trace (m : StoreMethods W Store CS Err)
    (s : STFAppManager W Ctx RStore Store Event Ty Err) (ctx : Ctx) (state : Store)
    (σ : State W Ctx RStore Store CS Event Ty) :
    ∃ added, (beginBlock m s ctx state σ).after.trace = σ.trace ++ added ∧
      ∀ c ∈ added, c.isTxCall = false := by
  unfold beginBlock
  simp only [State.log, State.build, makeContext]
  split
  · refine ⟨[_], rfl, ?_⟩
    simp [Call.isTxCall]
  · split
    · refine ⟨[_, _], List.append_assoc _ _ _, ?_⟩
      simp [Call.isTxCall]
    · refine ⟨[_, _, _], by rw [List.append_assoc, List.append_assoc]; rfl, ?_⟩
      simp [Call.isTxCall]

/-- C2: `DeliverBlock` returns an error if and only if the begin-block phase fails, or it
succeeds and the end-block phase fails.  In that case the block response and the new
state are both nil and the error is the error of the failing phase.  When begin-block
fails, `DeliverBlock` stops in the state begin-block left: the calls added to the log
contain no decoding, no validation hook and no message handler.  When both phases succeed
`DeliverBlock` returns no error, whatever happens inside the transactions. -/
theorem DeliverBlock_error_iff (m : StoreMethods W Store CS Err)
    (s : STFAppManager W Ctx RStore Store Event Ty Err) (ctx : Ctx) (block : Block Ty)
    (state : RStore) (σ : State W Ctx RStore Store CS Event Ty) (newState : Store) (w0 : W)
    (bb eb : PhaseOut W Ctx RStore Store CS Event Ty Err)
    (hbr : s.branch state σ.world = (newState, w0))
    (hbb : beginBlock m s ctx newState (σ.log (Call.branch state) w0) = bb)
    (heb : endBlock m s ctx newState block
      (stateBefore m s ctx newState block.Txs bb.after block.Txs.length) = eb) :
    ((DeliverBlock m s ctx block state σ).err ≠ none ↔
      bb.err ≠ none ∨ (bb.err = none ∧ eb.err ≠ none)) ∧
    ((DeliverBlock m s ctx block state σ).err ≠ none →
      (DeliverBlock m s ctx block state σ).blockResult = none ∧
      (DeliverBlock m s ctx block state σ).newState = none) ∧
    (bb.err ≠ none →
      (DeliverBlock m s ctx block state σ).err = bb.err ∧
      (DeliverBlock m s ctx block state σ).after = bb.after ∧
      ∃ added, (DeliverBlock m s ctx block state σ).after.trace = σ.trace ++ added ∧
        ∀ c ∈ added, c.isTxCall = false) ∧
    (bb.err = none → eb.err ≠ none →
      (DeliverBlock m s ctx block state σ).err = eb.err ∧
      (DeliverBlock m s ctx block state σ).after = eb.after) ∧
    (bb.err = none → eb.err = none →
      (DeliverBlock m s ctx block state σ).err = none ∧
      (DeliverBlock m s ctx block state σ).newState = some newState ∧
      ∃ br, (DeliverBlock m s ctx block state σ).blockResult = some br) := by
  subst heb
  subst hbb
  obtain ⟨added, hadd, hcalls⟩ :=
    beginBlock_trace m s ctx newState (σ.log (Call.branch state) w0)
  unfold DeliverBlock
  simp only [hbr, deliverLoop_state]
  cases hb : (beginBlock m s ctx newState (σ.log (Call.branch state) w0)).err with
  | some e =>
    simp only [ne_eq, reduceCtorEq, not_false_eq_true, true_or, and_self, implies_true,
      false_and, or_false, true_and, IsEmpty.forall_iff, and_true, forall_const]
    refine ⟨Call.branch state :: added, ?_, ?_⟩
    · rw [hadd]; simp [State.log]
    · intro c hc
      rcases List.mem_cons.mp hc with rfl | hc
      · rfl
      · exact hcalls c hc
  | none =>
    cases he : (endBlock m s ctx newState block
        (stateBefore m s ctx newState block.Txs
          (beginBlock m s ctx newState (σ.log (Call.branch state) w0)).after
          block.Txs.length)).err with
    | some e => simp
    | none => simp

/-- C2, at the concrete application with a failing begin-block hook: the error of the
hook is returned, without response or state, and the decoder is never called. -/
theorem DeliverBlock_error_iff_witness :
    (DeliverBlock Demo.store Demo.failingApp 0 (Demo.blockOf [[10, 1, 5]]) 0 Demo.init).err
      = some 9 ∧
    (DeliverBlock Demo.store Demo.failingApp 0 (Demo.blockOf [[10, 1, 5]]) 0
      Demo.init).blockResult = none ∧
    (DeliverBlock Demo.store Demo.failingApp 0 (Demo.blockOf [[10, 1, 5]]) 0
      Demo.init).newState = none ∧
    (DeliverBlock Demo.store Demo.failingApp 0 (Demo.blockOf [[10, 1, 5]]) 0
      Demo.init).after.trace =
      [Call.branch 0, Call.doBeginBlock (HookCtx.exec
        { Context := 0, store := 1, gasUsed := 0, gasLimit := 0, events := [],
          sender := runtimeIdentity })] :=
  have h := DeliverBlock_error_iff Demo.store Demo.failingApp 0 (Demo.blockOf [[10, 1, 5]]) 0
    Demo.init 1 []
    (beginBlock Demo.store Demo.failingApp 0 1 (Demo.init.log (Call.branch 0) []))
    (endBlock Demo.store Demo.failingApp 0 1 (Demo.blockOf [[10, 1, 5]])
      (stateBefore Demo.store Demo.failingApp 0 1 [[10, 1, 5]]
        (beginBlock Demo.store Demo.failingApp 0 1 (Demo.init.log (Call.branch 0) [])).after
        1))
    rfl rfl rfl
  have hfail : (beginBlock Demo.store Demo.failingApp 0 1
      (Demo.init.log (Call.branch 0) [])).err ≠ none := by decide
  ⟨(h.2.2.1 hfail).1, (h.2.1 ((h.1).mpr (Or.inl hfail))).1,
    (h.2.1 ((h.1).mpr (Or.inl hfail))).2, congrArg State.trace (h.2.2.1 hfail).2.1⟩

/-! ## Where the code departs from its description -/

/-- When the validation hook returns an error, `validateTx` reports no error: it returns
`(0, nil, nil)` after the single call of the hook. -/
theorem validateTx_hook_error (m : StoreMethods W Store CS Err)
    (s : STFAppManager W Ctx RStore Store Event Ty Err) (ctx : Ctx) (store : Store)
    (gasLimit : Nat) (tx : Tx Ty) (σ : State W Ctx RStore Store CS Event Ty) (e : Err)
    (hval : (s.doTxValidation (HookCtx.outer ctx) tx σ.world).err = some e) :
    validateTx m s ctx store gasLimit tx σ =
      { gasUsed := 0, events := [], err := none
        after :=
          { world := (s.doTxValidation (HookCtx.outer ctx) tx σ.world).world
            trace := σ.trace ++ [Call.doTxValidation (HookCtx.outer ctx) tx]
            built := σ.built ++ [makeContext s ctx tx.GetSender store gasLimit] } } := by
  simp [validateTx, hval, State.log, State.build]

/-- The body of `endBlock` is the body of `beginBlock`: it invokes `doBeginBlock`. -/
theorem endBlock_eq_beginBlock (m : StoreMethods W Store CS Err)
    (s : STFAppManager W Ctx RStore Store Event Ty Err) (ctx : Ctx) (store : Store)
    (block : Block Ty) (σ : State W Ctx RStore Store CS Event Ty) :
    endBlock m s ctx store block σ = beginBlock m s ctx store σ :=
  rfl

/-- C3 (the code departs from it): in the concrete application the raw transaction
`[10, 1, 0]` decodes and its validation hook returns error 2; `deliverTx` nevertheless
returns a result without error, carrying the response 100 of the message handler, which
was invoked, and the change set pulled after the handler was merged into the working
store. -/
theorem deliverTx_validation_error_swallowed :
    Demo.app.decodeTx [10, 1, 0]
      = Except.ok { message := some 0, sender := [1], gasLimit := 10 } ∧
    (Demo.app.doTxValidation (HookCtx.outer 0)
      { message := some 0, sender := [1], gasLimit := 10 } []).err = some 2 ∧
    deliverTx Demo.store Demo.app 0 1 [10, 1, 0] Demo.init =
      ({ Events := [], GasUsed := 0, Resp := some 100, Error := none },
       { world := [1000, 1000]
         trace :=
          [Call.decodeTx [10, 1, 0],
           Call.doTxValidation (HookCtx.outer 0)
             { message := some 0, sender := [1], gasLimit := 10 },
           Call.handleMsg (HookCtx.outer 0) (some 0),
           Call.ChangeSets 1, Call.ApplyChangeSets 1 [1000]]
         built :=
          [{ Context := 0, store := 1, gasUsed := 0, gasLimit := 10, events := [],
             sender := [1] },
           { Context := 0, store := 1, gasUsed := 0, gasLimit := 10, events := [],
             sender := [1] }] }) :=
  ⟨rfl, rfl, rfl⟩

/-- C8 (the code departs from it): in the concrete application `validateTx` invokes the
validation hook with the caller's context `0`, and `execTx` invokes the message handler
with the caller's context `0`, neither with the execution context built by `makeContext`
for the phase; the gas 5 and the event 20 that the validation hook accounts for are not
in what `validateTx` returns. -/
theorem tx_hooks_receive_outer_context :
    (validateTx Demo.store Demo.app 0 1 10
      { message := some 5, sender := [1], gasLimit := 10 } Demo.init).after.trace =
      [Call.doTxValidation (HookCtx.outer 0) { message := some 5, sender := [1], gasLimit := 10 },
       Call.ChangeSets 1, Call.ApplyChangeSets 1 [10]] ∧
    (execTx Demo.store Demo.app 0 1 10
      { message := some 5, sender := [1], gasLimit := 10 } Demo.init).after.trace =
      [Call.handleMsg (HookCtx.outer 0) (some 5),
       Call.ChangeSets 1, Call.ApplyChangeSets 1 [1000]] ∧
    (HookCtx.outer 0 : HookCtx Nat Nat Nat) ≠
      HookCtx.exec (makeContext Demo.app 0 [1] 1 10) ∧
    (Demo.app.doTxValidation (HookCtx.outer 0)
      { message := some 5, sender := [1], gasLimit := 10 } []).gasUsed = 5 ∧
    (Demo.app.doTxValidation (HookCtx.outer 0)
      { message := some 5, sender := [1], gasLimit := 10 } []).events = [20] ∧
    (validateTx Demo.store Demo.app 0 1 10
      { message := some 5, sender := [1], gasLimit := 10 } Demo.init).gasUsed = 0 ∧
    (validateTx Demo.store Demo.app 0 1 10
      { message := some 5, sender := [1], gasLimit := 10 } Demo.init).events = [] :=
  ⟨rfl, rfl, by simp, rfl, rfl, rfl, rfl⟩

/-- C9 (the code departs from it): in the concrete application the end-block hook fails
with error 9 and the begin-block hook emits event 1; `DeliverBlock` on the empty block
returns no error and `EndBlockEvents = [1]`: the begin-block hook is invoked twice and
the end-block hook never. -/
theorem endBlock_invokes_begin_hook :
    (Demo.app.doEndBlock
      (HookCtx.exec (makeContext Demo.app 0 runtimeIdentity 1 0)) []).err = some 9 ∧
    (DeliverBlock Demo.store Demo.app 0 (Demo.blockOf []) 0 Demo.init).err = none ∧
    (DeliverBlock Demo.store Demo.app 0 (Demo.blockOf []) 0 Demo.init).blockResult =
      some { BeginBlockEvents := [1], TxResults := [], EndBlockEvents := [1],
             ConsensusMessagesResponses := [] } ∧
    (DeliverBlock Demo.store Demo.app 0 (Demo.blockOf []) 0 Demo.init).after.trace =
      [Call.branch 0,
       Call.doBeginBlock (HookCtx.exec (makeContext Demo.app 0 runtimeIdentity 1 0)),
       Call.ChangeSets 1, Call.ApplyChangeSets 1 [],
       Call.doBeginBlock (HookCtx.exec (makeContext Demo.app 0 runtimeIdentity 1 0)),
       Call.ChangeSets 1, Call.ApplyChangeSets 1 []] :=
  ⟨rfl, rfl, rfl, rfl⟩

/-! ## The calls made by each phase -/

/-- The calls that `validateTx` adds to the log: the validation hook on the caller's
context, then `ChangeSets` and `ApplyChangeSets` on the given store. -/
theorem validateTx_calls (m : StoreMethods W Store CS Err)
    (s : STFAppManager W Ctx RStore Store Event Ty Err) (ctx : Ctx) (store : Store)
    (gasLimit : Nat) (tx : Tx Ty) (σ : State W Ctx RStore Store CS Event Ty) :
    ∃ added, (validateTx m s ctx store gasLimit tx σ).after.trace = σ.trace ++ added ∧
      ∀ c ∈ added, c = Call.doTxValidation (HookCtx.outer ctx) tx ∨
        c = Call.ChangeSets store ∨ ∃ cs, c = Call.ApplyChangeSets store cs := by
  unfold validateTx
  simp only [State.log, State.build, makeContext]
  split
  · exact ⟨[_], rfl, by simp⟩
  · split
    · exact ⟨[_, _], List.append_assoc _ _ _, by simp⟩
    · split
      · exact ⟨[_, _, _], by rw [List.append_assoc, List.append_assoc]; rfl, by simp⟩
      · exact ⟨[_, _, _], by rw [List.append_assoc, List.append_assoc]; rfl, by simp⟩

/-- The calls that `execTx` adds to the log: the message handler on the caller's context,
then `ChangeSets` and `ApplyChangeSets` on the given store. -/
theorem execTx_calls (m : StoreMethods W Store CS Err)
    (s : STFAppManager W Ctx RStore Store Event Ty Err) (ctx : Ctx) (store : Store)
    (gasLimit : Nat) (tx : Tx Ty) (σ : State W Ctx RStore Store CS Event Ty) :
    ∃ added, (execTx m s ctx store gasLimit tx σ).after.trace = σ.trace ++ added ∧
      ∀ c ∈ added, c = Call.handleMsg (HookCtx.outer ctx) tx.GetMessage ∨
        c = Call.ChangeSets store ∨ ∃ cs, c = Call.ApplyChangeSets store cs := by
  unfold execTx
  simp only [State.log, State.build, makeContext]
  split
  · exact ⟨[_], rfl, by simp⟩
  · split
    · exact ⟨[_, _], List.append_assoc _ _ _, by simp⟩
    · split
      · exact ⟨[_, _, _], by rw [List.append_assoc, List.append_assoc]; rfl, by simp⟩
      · exact ⟨[_, _, _], by rw [List.append_assoc, List.append_assoc]; rfl, by simp⟩

/-- The calls that `deliverTx` adds to the log: the decoder, the two transaction hooks on
the caller's context, and the two store methods on the given store. -/
theorem deliverTx_calls (m : StoreMethods W Store CS Err)
    (s : STFAppManager W Ctx RStore Store Event Ty Err) (ctx : Ctx) (state : Store)
    (txBytes : Bytes) (σ : State W Ctx RStore Store CS Event Ty) :
    ∃ added, (deliverTx m s ctx state txBytes σ).2.trace = σ.trace ++ added ∧
      ∀ c ∈ added, c = Call.decodeTx txBytes ∨
        (∃ tx, c = Call.doTxValidation (HookCtx.outer ctx) tx) ∨
        (∃ msg, c = Call.handleMsg (HookCtx.outer ctx) msg) ∨
        c = Call.ChangeSets state ∨ ∃ cs, c = Call.ApplyChangeSets state cs := by
  unfold deliverTx
  simp only
  split
  · exact ⟨[_], rfl, by simp⟩
  · rename_i tx hdec
    obtain ⟨va, hva, hvp⟩ := validateTx_calls m s ctx state tx.GetGasLimit tx
      (σ.log (Call.decodeTx txBytes) σ.world)
    have hvall : ∀ c ∈ Call.decodeTx txBytes :: va, c = Call.decodeTx txBytes ∨
        (∃ tx, c = Call.doTxValidation (HookCtx.outer ctx) tx) ∨
        (∃ msg, c = Call.handleMsg (HookCtx.outer ctx) msg) ∨
        c = Call.ChangeSets state ∨ ∃ cs, c = Call.ApplyChangeSets state cs := by
      intro c hc
      rcases List.mem_cons.mp hc with rfl | hc
      · exact Or.inl rfl
      · rcases hvp c hc with h | h | h
        · exact Or.inr (Or.inl ⟨tx, h⟩)
        · exact Or.inr (Or.inr (Or.inr (Or.inl h)))
        · exact Or.inr (Or.inr (Or.inr (Or.inr h)))
    have hvtrace : (validateTx m s ctx state tx.GetGasLimit tx
        (σ.log (Call.decodeTx txBytes) σ.world)).after.trace
        = σ.trace ++ Call.decodeTx txBytes :: va := by
      rw [hva]; simp [State.log]
    split
    · exact ⟨_, hvtrace, hvall⟩
    · obtain ⟨xa, hxa, hxp⟩ := execTx_calls m s ctx state
        (subU64 tx.GetGasLimit (validateTx m s ctx state tx.GetGasLimit tx
          (σ.log (Call.decodeTx txBytes) σ.world)).gasUsed) tx
        (validateTx m s ctx state tx.GetGasLimit tx
          (σ.log (Call.decodeTx txBytes) σ.world)).after
      have hxtrace : (execTx m s ctx state
          (subU64 tx.GetGasLimit (validateTx m s ctx state tx.GetGasLimit tx
            (σ.log (Call.decodeTx txBytes) σ.world)).gasUsed) tx
          (validateTx m s ctx state tx.GetGasLimit tx
            (σ.log (Call.decodeTx txBytes) σ.world)).after).after.trace
          = σ.trace ++ ((Call.decodeTx txBytes :: va) ++ xa) := by
        rw [hxa, hvtrace, List.append_assoc]
      have hxall : ∀ c ∈ (Call.decodeTx txBytes :: va) ++ xa, c = Call.decodeTx txBytes ∨
          (∃ tx, c = Call.doTxValidation (HookCtx.outer ctx) tx) ∨
          (∃ msg, c = Call.handleMsg (HookCtx.outer ctx) msg) ∨
          c = Call.ChangeSets state ∨ ∃ cs, c = Call.ApplyChangeSets state cs := by
        intro c hc
        rcases List.mem_append.mp hc with hc | hc
        · exact hvall c hc
        · rcases hxp c hc with h | h | h
          · exact Or.inr (Or.inr (Or.inl ⟨_, h⟩))
          · exact Or.inr (Or.inr (Or.inr (Or.inl h)))
          · exact Or.inr (Or.inr (Or.inr (Or.inr h)))
      split
      · exact ⟨_, hxtrace, hxall⟩
      · exact ⟨_, hxtrace, hxall⟩

/-- On every path `validateTx` returns gas 0 and no events. -/
theorem validateTx_gas_events (m : StoreMethods W Store CS Err)
    (s : STFAppManager W Ctx RStore Store Event Ty Err) (ctx : Ctx) (store : Store)
    (gasLimit : Nat) (tx : Tx Ty) (σ : State W Ctx RStore Store CS Event Ty) :
    (validateTx m s ctx store gasLimit tx σ).gasUsed = 0 ∧
    (validateTx m s ctx store gasLimit tx σ).events = [] := by
  unfold validateTx
  simp only [makeContext]
  split
  · exact ⟨rfl, rfl⟩
  · split
    · exact ⟨rfl, rfl⟩
    · split
      · exact ⟨rfl, rfl⟩
      · exact ⟨rfl, rfl⟩

/-- On every path `execTx` returns gas 0 and no events. -/
theorem execTx_gas_events (m : StoreMethods W Store CS Err)
    (s : STFAppManager W Ctx RStore Store Event Ty Err) (ctx : Ctx) (store : Store)
    (gasLimit : Nat) (tx : Tx Ty) (σ : State W Ctx RStore Store CS Event Ty) :
    (execTx m s ctx store gasLimit tx σ).gasUsed = 0 ∧
    (execTx m s ctx store gasLimit tx σ).execEvents = [] := by
  unfold execTx
  simp only [makeContext]
  split
  · exact ⟨rfl, rfl⟩
  · split
    · exact ⟨rfl, rfl⟩
    · split
      · exact ⟨rfl, rfl⟩
      · exact ⟨rfl, rfl⟩

/-- On every path the result of `deliverTx` has gas 0 and no events. -/
theorem deliverTx_gas_events (m : StoreMethods W Store CS Err)
    (s : STFAppManager W Ctx RStore Store Event Ty Err) (ctx : Ctx) (state : Store)
    (txBytes : Bytes) (σ : State W Ctx RStore Store CS Event Ty) :
    (deliverTx m s ctx state txBytes σ).1.GasUsed = 0 ∧
    (deliverTx m s ctx state txBytes σ).1.Events = [] := by
  unfold deliverTx
  simp only
  split
  · exact ⟨rfl, rfl⟩
  · rename_i tx hdec
    split
    · exact ⟨rfl, rfl⟩
    · split
      · simp [addU64, (validateTx_gas_events m s ctx state _ tx _).1,
          (validateTx_gas_events m s ctx state _ tx _).2,
          (execTx_gas_events m s ctx state _ tx _).1]
      · simp [addU64, (validateTx_gas_events m s ctx state _ tx _).1,
          (validateTx_gas_events m s ctx state _ tx _).2,
          (execTx_gas_events m s ctx state _ tx _).1,
          (execTx_gas_events m s ctx state _ tx _).2]

/-- The first call of the begin-block phase is a hook invocation on the execution
context built from the caller's context, the given store, the runtime identity and gas
limit 0. -/
theorem beginBlock_first_call (m : StoreMethods W Store CS Err)
    (s : STFAppManager W Ctx RStore Store Event Ty Err) (ctx : Ctx) (state : Store)
    (σ : State W Ctx RStore Store CS Event Ty) :
    ∃ c rest, (beginBlock m s ctx state σ).after.trace = σ.trace ++ c :: rest ∧
      c.hookCtx = some (HookCtx.exec
        { Context := ctx, store := state, gasUsed := 0, gasLimit := 0, events := [],
          sender := runtimeIdentity }) := by
  unfold beginBlock
  simp only [State.log, State.build, makeContext]
  split
  · exact ⟨Call.doBeginBlock _, [], rfl, rfl⟩
  · split
    · exact ⟨Call.doBeginBlock _, [Call.ChangeSets state], by simp [List.append_assoc], rfl⟩
    · rename_i cs hcs
      exact ⟨Call.doBeginBlock _, [Call.ChangeSets state, Call.ApplyChangeSets state cs],
        by simp [List.append_assoc], rfl⟩

/-! ## Gas budgets and gas reports -/

/-- The one context that `validateTx` builds: caller's context, given store and gas
limit, sender of the transaction. -/
theorem validateTx_built (m : StoreMethods W Store CS Err)
    (s : STFAppManager W Ctx RStore Store Event Ty Err) (ctx : Ctx) (store : Store)
    (gasLimit : Nat) (tx : Tx Ty) (σ : State W Ctx RStore Store CS Event Ty) :
    (validateTx m s ctx store gasLimit tx σ).after.built =
      σ.built ++ [validateTxContext s ctx store gasLimit tx] := by
  unfold validateTx
  simp only [State.log, State.build, validateTxContext]
  split
  · rfl
  · split
    · rfl
    · split
      · rfl
      · rfl

/-- The one context that `execTx` builds: caller's context, given store and gas limit,
sender of the transaction. -/
theorem execTx_built (m : StoreMethods W Store CS Err)
    (s : STFAppManager W Ctx RStore Store Event Ty Err) (ctx : Ctx) (store : Store)
    (gasLimit : Nat) (tx : Tx Ty) (σ : State W Ctx RStore Store CS Event Ty) :
    (execTx m s ctx store gasLimit tx σ).after.built =
      σ.built ++ [execTxContext s ctx store gasLimit tx] := by
  unfold execTx
  simp only [State.log, State.build, execTxContext]
  split
  · rfl
  · split
    · rfl
    · split
      · rfl
      · rfl

/-- The one context that `beginBlock` builds. -/
theorem beginBlock_built (m : StoreMethods W Store CS Err)
    (s : STFAppManager W Ctx RStore Store Event Ty Err) (ctx : Ctx) (state : Store)
    (σ : State W Ctx RStore Store CS Event Ty) :
    (beginBlock m s ctx state σ).after.built =
      σ.built ++ [makeContext s ctx runtimeIdentity state 0] := by
  unfold beginBlock
  simp only [State.log, State.build]
  split
  · rfl
  · split
    · rfl
    · rfl

/-- C11: for a transaction that decodes, `deliverTx` has the validation context built
with the full declared gas limit and the sender of the transaction, and, when `validateTx`
reports no error, the execution context built with the declared limit minus the gas
returned by validation (a `uint64` subtraction) and the same sender; these are the only
contexts it builds.  The begin-block and end-block phases each build one context, with
the runtime identity and gas limit 0, and invoke their hook on it. -/
theorem phase_contexts_budget (m : StoreMethods W Store CS Err)
    (s : STFAppManager W Ctx RStore Store Event Ty Err) (ctx : Ctx) (state : Store)
    (txBytes : Bytes) (σ : State W Ctx RStore Store CS Event Ty) (tx : Tx Ty)
    (hdec : s.decodeTx txBytes = Except.ok tx) :
    ((validateTx m s ctx state tx.GetGasLimit tx
        (σ.log (Call.decodeTx txBytes) σ.world)).err ≠ none →
      (deliverTx m s ctx state txBytes σ).2.built = σ.built ++
        [{ Context := ctx, store := state, gasUsed := 0, gasLimit := tx.GetGasLimit,
           events := [], sender := tx.GetSender }]) ∧
    ((validateTx m s ctx state tx.GetGasLimit tx
        (σ.log (Call.decodeTx txBytes) σ.world)).err = none →
      (deliverTx m s ctx state txBytes σ).2.built = σ.built ++
        [{ Context := ctx, store := state, gasUsed := 0, gasLimit := tx.GetGasLimit,
           events := [], sender := tx.GetSender },
         { Context := ctx, store := state, gasUsed := 0,
           gasLimit := subU64 tx.GetGasLimit
             (validateTx m s ctx state tx.GetGasLimit tx
               (σ.log (Call.decodeTx txBytes) σ.world)).gasUsed,
           events := [], sender := tx.GetSender }]) ∧
    (∀ (st : Store) (σ1 : State W Ctx RStore Store CS Event Ty),
      (beginBlock m s ctx st σ1).after.built = σ1.built ++
        [{ Context := ctx, store := st, gasUsed := 0, gasLimit := 0, events := [],
           sender := runtimeIdentity }] ∧
      ∃ c rest, (beginBlock m s ctx st σ1).after.trace = σ1.trace ++ c :: rest ∧
        c.hookCtx = some (HookCtx.exec
          { Context := ctx, store := st, gasUsed := 0, gasLimit := 0, events := [],
            sender := runtimeIdentity })) ∧
    (∀ (st : Store) (block : Block Ty) (σ1 : State W Ctx RStore Store CS Event Ty),
      (endBlock m s ctx st block σ1).after.built = σ1.built ++
        [{ Context := ctx, store := st, gasUsed := 0, gasLimit := 0, events := [],
           sender := runtimeIdentity }] ∧
      ∃ c rest, (endBlock m s ctx st block σ1).after.trace = σ1.trace ++ c :: rest ∧
        c.hookCtx = some (HookCtx.exec
          { Context := ctx, store := st, gasUsed := 0, gasLimit := 0, events := [],
            sender := runtimeIdentity })) := by
  refine ⟨?_, ?_, ?_, ?_⟩
  · intro hv
    unfold deliverTx
    simp only [hdec]
    split
    · rw [validateTx_built]
      rfl
    · rename_i hnone
      exact absurd hnone hv
  · intro hv
    unfold deliverTx
    simp only [hdec]
    split
    · rename_i e he
      rw [hv] at he
      simp at he
    · split
      · rw [execTx_built, validateTx_built]
        simp [State.log, validateTxContext, execTxContext, makeContext]
      · rw [execTx_built, validateTx_built]
        simp [State.log, validateTxContext, execTxContext, makeContext]
  · intro st σ1
    exact ⟨beginBlock_built m s ctx st σ1, beginBlock_first_call m s ctx st σ1⟩
  · intro st block σ1
    exact ⟨beginBlock_built m s ctx st σ1, beginBlock_first_call m s ctx st σ1⟩

/-- C11, at the raw transaction `[10, 1, 5]` of the concrete application: both contexts
are built with gas limit 10 and sender `[1]`. -/
theorem phase_contexts_budget_witness :
    (deliverTx Demo.store Demo.app 0 1 [10, 1, 5] Demo.init).2.built =
      [{ Context := 0, store := 1, gasUsed := 0, gasLimit := 10, events := [], sender := [1] },
       { Context := 0, store := 1, gasUsed := 0, gasLimit := 10, events := [], sender := [1] }] :=
  (phase_contexts_budget Demo.store Demo.app 0 1 [10, 1, 5] Demo.init
    { message := some 5, sender := [1], gasLimit := 10 } rfl).2.1 rfl

/-- C13: `execTx` returns gas 0 on every path, and for a transaction that decodes the
`GasUsed` of the result of `deliverTx` is the gas returned by `validateTx` alone. -/
theorem execTx_reports_zero_gas (m : StoreMethods W Store CS Err)
    (s : STFAppManager W Ctx RStore Store Event Ty Err) (ctx : Ctx) (state : Store)
    (txBytes : Bytes) (σ : State W Ctx RStore Store CS Event Ty) (tx : Tx Ty)
    (hdec : s.decodeTx txBytes = Except.ok tx) :
    (∀ (store : Store) (gasLimit : Nat) (tx1 : Tx Ty)
        (σ1 : State W Ctx RStore Store CS Event Ty),
      (execTx m s ctx store gasLimit tx1 σ1).gasUsed = 0) ∧
    (deliverTx m s ctx state txBytes σ).1.GasUsed =
      (validateTx m s ctx state tx.GetGasLimit tx
        (σ.log (Call.decodeTx txBytes) σ.world)).gasUsed := by
  refine ⟨fun store gasLimit tx1 σ1 => (execTx_gas_events m s ctx store gasLimit tx1 σ1).1, ?_⟩
  unfold deliverTx
  simp only [hdec]
  split
  · rename_i e he
    unfold validateTx at he ⊢
    simp only [makeContext] at he ⊢
    split at he
    · simp at he
    · split at he
      · rename_i hc
        simp [hc]
      · rename_i hhook cs hc
        split at he
        · rename_i ha
          simp [hc, ha]
        · simp at he
  · split
    · simp [addU64, (validateTx_gas_events m s ctx state _ tx _).1,
        (execTx_gas_events m s ctx state _ tx _).1]
    · simp [addU64, (validateTx_gas_events m s ctx state _ tx _).1,
        (execTx_gas_events m s ctx state _ tx _).1]

/-- C13, at the raw transaction `[10, 1, 7]` of the concrete application, whose handler
fails. -/
theorem execTx_reports_zero_gas_witness :
    (deliverTx Demo.store Demo.app 0 1 [10, 1, 7] Demo.init).1.GasUsed =
      (validateTx Demo.store Demo.app 0 1 10
        { message := some 7, sender := [1], gasLimit := 10 }
        (Demo.init.log (Call.decodeTx [10, 1, 7]) Demo.init.world)).gasUsed :=
  (execTx_reports_zero_gas Demo.store Demo.app 0 1 [10, 1, 7] Demo.init
    { message := some 7, sender := [1], gasLimit := 10 } rfl).2

/-- C14: for every raw transaction and every behaviour of the collaborators, the result
of `deliverTx` has `GasUsed = 0` and no events.  No call that `deliverTx` makes hands an
execution context to a hook; the gas returned by `validateTx` is 0; the budget
`limit - validateGas` of the execution context is the full declared limit, and the
`uint64` subtraction does not wrap around (the subtrahend is at most the limit). -/
theorem deliverTx_gas_events_always_zero (m : StoreMethods W Store CS Err)
    (s : STFAppManager W Ctx RStore Store Event Ty Err) (ctx : Ctx) (state : Store)
    (txBytes : Bytes) (σ : State W Ctx RStore Store CS Event Ty) :
    (deliverTx m s ctx state txBytes σ).1.GasUsed = 0 ∧
    (deliverTx m s ctx state txBytes σ).1.Events = [] ∧
    (∃ added, (deliverTx m s ctx state txBytes σ).2.trace = σ.trace ++ added ∧
      ∀ c ∈ added, ∀ e, c.hookCtx ≠ some (HookCtx.exec e)) ∧
    (∀ (tx : Tx Ty) (σ1 : State W Ctx RStore Store CS Event Ty),
      (validateTx m s ctx state tx.GetGasLimit tx σ1).gasUsed = 0 ∧
      (validateTx m s ctx state tx.GetGasLimit tx σ1).gasUsed ≤ tx.GetGasLimit ∧
      subU64 tx.GetGasLimit (validateTx m s ctx state tx.GetGasLimit tx σ1).gasUsed
        = tx.GetGasLimit ∧
      (execTxContext s ctx state
        (subU64 tx.GetGasLimit (validateTx m s ctx state tx.GetGasLimit tx σ1).gasUsed)
        tx).gasLimit = tx.GetGasLimit) := by
  refine ⟨(deliverTx_gas_events m s ctx state txBytes σ).1,
    (deliverTx_gas_events m s ctx state txBytes σ).2, ?_, ?_⟩
  · obtain ⟨added, hadd, hall⟩ := deliverTx_calls m s ctx state txBytes σ
    refine ⟨added, hadd, ?_⟩
    intro c hc e
    rcases hall c hc with h | ⟨tx, h⟩ | ⟨msg, h⟩ | h | ⟨cs, h⟩ <;> subst h <;>
      simp [Call.hookCtx]
  · intro tx σ1
    have hz := (validateTx_gas_events m s ctx state tx.GetGasLimit tx σ1).1
    have hsub : subU64 tx.GetGasLimit 0 = tx.GetGasLimit := by
      simp [subU64, Tx.GetGasLimit]
    refine ⟨hz, by omega, by rw [hz]; exact hsub, ?_⟩
    rw [hz]
    exact hsub

/-! ## What is merged -/

/-- C15: in each of `beginBlock`, `validateTx`, `execTx` and `endBlock`, when the hook of
the phase succeeds and `ChangeSets` succeeds with `cs`, the calls of the phase are the
hook, then `ChangeSets` on the working store, then `ApplyChangeSets` of `cs` on that same
store: the store of the phase context is the working store itself, and what is merged
into the working store is the change set just pulled from it. -/
theorem merge_reapplies_own_change_set (m : StoreMethods W Store CS Err)
    (s : STFAppManager W Ctx RStore Store Event Ty Err) (ctx : Ctx) (store : Store)
    (block : Block Ty) (gasLimit : Nat) (tx : Tx Ty)
    (σ : State W Ctx RStore Store CS Event Ty) (cs : CS) (w2 : W) :
    ((s.doBeginBlock (HookCtx.exec (makeContext s ctx runtimeIdentity store 0)) σ.world).err
        = none →
      m.ChangeSets store
        (s.doBeginBlock (HookCtx.exec (makeContext s ctx runtimeIdentity store 0))
          σ.world).world = (Except.ok cs, w2) →
      (beginBlock m s ctx store σ).after.trace = σ.trace ++
        [Call.doBeginBlock (HookCtx.exec (makeContext s ctx runtimeIdentity store 0)),
         Call.ChangeSets store, Call.ApplyChangeSets store cs]) ∧
    ((s.doTxValidation (HookCtx.outer ctx) tx σ.world).err = none →
      m.ChangeSets store (s.doTxValidation (HookCtx.outer ctx) tx σ.world).world
        = (Except.ok cs, w2) →
      (validateTx m s ctx store gasLimit tx σ).after.trace = σ.trace ++
        [Call.doTxValidation (HookCtx.outer ctx) tx,
         Call.ChangeSets store, Call.ApplyChangeSets store cs]) ∧
    ((s.handleMsg (HookCtx.outer ctx) tx.GetMessage σ.world).err = none →
      m.ChangeSets store (s.handleMsg (HookCtx.outer ctx) tx.GetMessage σ.world).world
        = (Except.ok cs, w2) →
      (execTx m s ctx store gasLimit tx σ).after.trace = σ.trace ++
        [Call.handleMsg (HookCtx.outer ctx) tx.GetMessage,
         Call.ChangeSets store, Call.ApplyChangeSets store cs]) ∧
    ((s.doBeginBlock (HookCtx.exec (makeContext s ctx runtimeIdentity store 0)) σ.world).err
        = none →
      m.ChangeSets store
        (s.doBeginBlock (HookCtx.exec (makeContext s ctx runtimeIdentity store 0))
          σ.world).world = (Except.ok cs, w2) →
      (endBlock m s ctx store block σ).after.trace = σ.trace ++
        [Call.doBeginBlock (HookCtx.exec (makeContext s ctx runtimeIdentity store 0)),
         Call.ChangeSets store, Call.ApplyChangeSets store cs]) ∧
    (validateTxContext s ctx store gasLimit tx).store = store ∧
    (execTxContext s ctx store gasLimit tx).store = store := by
  refine ⟨?_, ?_, ?_, ?_, rfl, rfl⟩
  · intro hhook hcs
    simp only [makeContext] at hhook hcs
    simp [beginBlock, makeContext, State.log, State.build, hhook, hcs]
  · intro hhook hcs
    unfold validateTx
    simp only [makeContext, State.log, State.build, hhook, hcs]
    split <;> simp
  · intro hhook hcs
    unfold execTx
    simp only [makeContext, State.log, State.build, hhook, hcs]
    split <;> simp
  · intro hhook hcs
    simp only [makeContext] at hhook hcs
    simp [endBlock, makeContext, State.log, State.build, hhook, hcs]

/-- C15, at the concrete application: the validation phase of the transaction with gas
limit 10 pulls `[10]` from store 1 and applies `[10]` to store 1. -/
theorem merge_reapplies_own_change_set_witness :
    (validateTx Demo.store Demo.app 0 1 10
      { message := some 5, sender := [1], gasLimit := 10 } Demo.init).after.trace =
      [Call.doTxValidation (HookCtx.outer 0) { message := some 5, sender := [1], gasLimit := 10 },
       Call.ChangeSets 1, Call.ApplyChangeSets 1 [10]] :=
  (merge_reapplies_own_change_set Demo.store Demo.app 0 1 (Demo.blockOf []) 10
    { message := some 5, sender := [1], gasLimit := 10 } Demo.init [10] [10]).2.1 rfl rfl

/-! ## What of the block is read -/

/-- C16: the outcome of `DeliverBlock` depends on the block only through `block.Txs`:
two blocks with equal `Txs` give the same response, new state, error and final state,
whatever their `Height`, `Time`, `Hash` and `ConsensusMessages`; and the
`ConsensusMessagesResponses` of every returned response is empty. -/
theorem DeliverBlock_reads_only_txs (m : StoreMethods W Store CS Err)
    (s : STFAppManager W Ctx RStore Store Event Ty Err) (ctx : Ctx) (b1 b2 : Block Ty)
    (state : RStore) (σ : State W Ctx RStore Store CS Event Ty)
    (h : b1.Txs = b2.Txs) :
    DeliverBlock m s ctx b1 state σ = DeliverBlock m s ctx b2 state σ ∧
    ∀ br, (DeliverBlock m s ctx b1 state σ).blockResult = some br →
      br.ConsensusMessagesResponses = [] := by
  constructor
  · unfold DeliverBlock
    simp only [endBlock_eq_beginBlock, h]
  · intro br hbr
    unfold DeliverBlock at hbr
    simp only at hbr
    split at hbr
    · simp at hbr
    · split at hbr
      · simp at hbr
      · simp only [Option.some.injEq] at hbr
        rw [← hbr]

/-- C16, at two blocks of the concrete application with the same transactions and
different height, time, hash and consensus messages. -/
theorem DeliverBlock_reads_only_txs_witness :
    DeliverBlock Demo.store Demo.app 0 (Demo.blockOf [[10, 1, 5]]) 0 Demo.init =
      DeliverBlock Demo.store Demo.app 0
        { Height := 7, Time := 3, Hash := [1], Txs := [[10, 1, 5]],
          ConsensusMessages := [some 4] } 0 Demo.init :=
  (DeliverBlock_reads_only_txs Demo.store Demo.app 0 (Demo.blockOf [[10, 1, 5]])
    { Height := 7, Time := 3, Hash := [1], Txs := [[10, 1, 5]],
      ConsensusMessages := [some 4] } 0 Demo.init rfl).1

end Theorems

end AppManager

namespace Eyes

section Theorems

variable {SetTx RemoveTx : Type}

/-- One step of the loop is the type assertion of the source: when `hi` is an `EyesTx`
the loop goes on with the value the wrapper holds, otherwise it stops at `hi`. -/
theorem unwrapLoop_step (hi : EyesTxInner SetTx RemoveTx) :
    unwrapLoop hi =
      match assertEyesTx hi with
      | some wrap => unwrapLoop wrap.EyesTxInner
      | none => hi := by
  cases hi <;> simp [unwrapLoop, assertEyesTx]

/-- The loop stops at once on a value that is not an `EyesTx`. -/
theorem unwrapLoop_concrete (x : EyesTxInner SetTx RemoveTx)
    (hx : ∀ inner, x ≠ EyesTxInner.eyesTx inner) : unwrapLoop x = x := by
  cases x with
  | eyesTx inner => exact absurd rfl (hx inner)
  | nil => rfl
  | setTx t => rfl
  | removeTx t => rfl

/-- The loop never stops at an `EyesTx`. -/
theorem unwrapLoop_not_eyesTx (hi : EyesTxInner SetTx RemoveTx) :
    ∀ inner, unwrapLoop hi ≠ EyesTxInner.eyesTx inner := by
  induction hi with
  | eyesTx i ih => intro inner; simpa [unwrapLoop] using ih inner
  | nil => intro inner; simp [unwrapLoop]
  | setTx t => intro inner; simp [unwrapLoop]
  | removeTx t => intro inner; simp [unwrapLoop]

/-- Unwrapping goes through every level of wrapping. -/
theorem Unwrap_wrapTimes_eq (x : EyesTxInner SetTx RemoveTx) (k : Nat) :
    (wrapTimes x k).Unwrap = unwrapLoop x := by
  induction k with
  | zero => rfl
  | succ k ih =>
    simp only [EyesTx.Unwrap] at ih
    simp only [wrapTimes, EyesTx.Unwrap, EyesTx.toInner, unwrapLoop, ih]

/-- C17: for every value `x` that is not itself an `EyesTx` (nil included) and every
number of levels `n = k + 1 ≥ 1`, `Unwrap` of `x` wrapped `n` times in `EyesTx` returns
`x` (`Unwrap` is a total function: the loop ends); the result of `Unwrap` is never an
`EyesTx`; and `Unwrap(Wrap(t)) = t` for every `SetTx` and every `RemoveTx`. -/
theorem Unwrap_recovers_concrete (x : EyesTxInner SetTx RemoveTx) (k : Nat)
    (hx : ∀ inner, x ≠ EyesTxInner.eyesTx inner) :
    (wrapTimes x k).Unwrap = x ∧
    (∀ (h : EyesTx SetTx RemoveTx) (inner : EyesTxInner SetTx RemoveTx),
      h.Unwrap ≠ EyesTxInner.eyesTx inner) ∧
    (∀ t : SetTx, (Eyes.SetTx.Wrap t : EyesTx SetTx RemoveTx).Unwrap = EyesTxInner.setTx t) ∧
    (∀ t : RemoveTx,
      (Eyes.RemoveTx.Wrap t : EyesTx SetTx RemoveTx).Unwrap = EyesTxInner.removeTx t) := by
  refine ⟨?_, ?_, fun t => rfl, fun t => rfl⟩
  · rw [Unwrap_wrapTimes_eq, unwrapLoop_concrete x hx]
  · intro h inner
    exact unwrapLoop_not_eyesTx h.EyesTxInner inner

/-- C17, at a `SetTx` (here the number 4) wrapped three times. -/
theorem Unwrap_recovers_concrete_witness :
    (wrapTimes (EyesTxInner.setTx 4 : EyesTxInner Nat Nat) 2).Unwrap = EyesTxInner.setTx 4 :=
  (Unwrap_recovers_concrete (EyesTxInner.setTx 4 : EyesTxInner Nat Nat) 2
    (by intro inner; simp)).1

end Theorems

end Eyes
